import Mathlib

/-!
# Verification of the MeiliSearch index dump/restore subsystem

Shallow embedding of `meilisearch-lib/src/index/dump.rs`: the snapshot
writer (`Index::dump`, `dump_documents`, `dump_meta`) and the snapshot
restorer (`Index::load_dump`), together with the external interfaces they
consume (serde JSON encoding of the meta record, the `read_ndjson`
normalization step, the settings builder and the bulk document loader).

External collaborators whose sources are outside the given slice
(`Settings`, `read_ndjson`, the milli bulk loader) are modelled from the
specification, and are marked as such in their doc comments.
-/

namespace MeiliDump

/-- JSON values, modelling `serde_json::Value` (numbers abstracted to `Int`;
the properties under verification never inspect numeric representation). -/
inductive Json where
  | null
  | bool (b : Bool)
  | num (n : Int)
  | str (s : String)
  | arr (elems : List Json)
  | obj (fields : List (String × Json))

/-- A decoded document: an ordered mapping from field name to JSON value,
modelling the `IndexMap<&str, Value>` assembled in `dump_documents`. -/
abbrev Doc := List (String × Json)

/-- `IndexMap::insert`: if the key is present its value is replaced in
place (position preserved); otherwise the pair is appended at the end. -/
def insertIM (m : Doc) (k : String) (v : Json) : Doc :=
  if m.any (fun p => p.1 = k) then
    m.map (fun p => if p.1 = k then (k, v) else p)
  else
    m ++ [(k, v)]

/-- A stored per-document field payload (the obkv bytes). `serde_json::from_slice`
either decodes it to a value or fails; we model the bytes by their decode
outcome, which is all `dump_documents` observes of them. -/
inductive Payload where
  | val (j : Json)
  | corrupt

/-- `serde_json::from_slice::<Value>(bytes)`, as seen through `Payload`. -/
def Payload.decode : Payload → Option Json
  | .val j => some j
  | .corrupt => none

/-- The fields-ids map: association list from field id to field name;
`fields_ids_map.name(fid)` is `lookupName`. -/
abbrev FieldsIdsMap := List (Nat × String)

def lookupName : FieldsIdsMap → Nat → Option String
  | [], _ => none
  | p :: rest, fid => if p.1 = fid then some p.2 else lookupName rest fid

/-- Modelled from the spec: the per-field `Setting` wrapper of the index
`Settings` (a raw value may be not set, explicitly reset, or set). The
`Settings` struct itself lives outside the given slice. -/
inductive Setting (α : Type) where
  | notSet
  | reset
  | set (a : α)
deriving DecidableEq

/-- Modelled from the spec: `Settings<Unchecked>` — raw, untrusted index
configuration (searchable/filterable/sortable attributes, ranking rules),
used for storage and transport. -/
structure SettingsU where
  searchableAttributes : Setting (List String)
  filterableAttributes : Setting (List String)
  sortableAttributes : Setting (List String)
  rankingRules : Setting (List String)
deriving DecidableEq

/-- Modelled from the spec: `Settings<Checked>` — validated index
configuration, the only representation accepted by the indexer. -/
structure SettingsC where
  searchableAttributes : Setting (List String)
  filterableAttributes : Setting (List String)
  sortableAttributes : Setting (List String)
  rankingRules : Setting (List String)
deriving DecidableEq

/-- Modelled from the spec: `Settings::check`, the explicit validation step
from `Unchecked` to `Checked`. At the `load_dump` call site
(`let settings = settings.check();`) it is infallible. -/
def SettingsU.check (s : SettingsU) : SettingsC :=
  { searchableAttributes := s.searchableAttributes
    filterableAttributes := s.filterableAttributes
    sortableAttributes := s.sortableAttributes
    rankingRules := s.rankingRules }

/-- Modelled from the spec: `Settings::into_unchecked`, downgrading Checked
settings to the raw transport form (retains raw values). -/
def SettingsC.into_unchecked (s : SettingsC) : SettingsU :=
  { searchableAttributes := s.searchableAttributes
    filterableAttributes := s.filterableAttributes
    sortableAttributes := s.sortableAttributes
    rankingRules := s.rankingRules }

/-- The meta record of a snapshot (`struct DumpMeta`): Unchecked settings
plus the optional primary-key name. Note: the Rust struct has no
`#[serde(rename_all = "camelCase")]` attribute. -/
structure DumpMeta where
  settings : SettingsU
  primary_key : Option String
deriving DecidableEq

/-- Error taxonomy of the subsystem (spec §7), plus the
`invalid dump index` context error of `load_dump`. -/
inductive DumpError where
  | io
  | corruption
  | schema
  | capacity
  | format
  | invalidDumpIndex
  | noPrimaryKey
deriving DecidableEq

/-! ## serde JSON encoding of the meta record

`dump_meta` writes `DumpMeta` with `serde_json::to_writer`; `load_dump`
reads it back with `serde_json::from_reader`. The serde derive on
`DumpMeta` carries no rename attribute, so field keys are the Rust field
names (`settings`, `primary_key`). The `Settings<Unchecked>` serde
behaviour (camelCase keys, `NotSet` fields skipped, `Reset` as null) is
modelled from the spec. -/

/-- Association-list lookup on a JSON object's fields. -/
def alookup : List (String × Json) → String → Option Json
  | [], _ => none
  | p :: rest, k => if p.1 = k then some p.2 else alookup rest k

/-- Modelled from the spec: serde encoding of one settings field —
`NotSet` is skipped, `Reset` is `null`, `Set xs` is an array of strings. -/
def encField (k : String) : Setting (List String) → List (String × Json)
  | .notSet => []
  | .reset => [(k, Json.null)]
  | .set xs => [(k, Json.arr (xs.map Json.str))]

/-- Modelled from the spec: serde encoding of `Settings<Unchecked>` with
camelCase keys. -/
def encodeSettingsU (s : SettingsU) : Json :=
  Json.obj
    (encField "searchableAttributes" s.searchableAttributes ++
     encField "filterableAttributes" s.filterableAttributes ++
     encField "sortableAttributes" s.sortableAttributes ++
     encField "rankingRules" s.rankingRules)

/-- serde encoding of `Option<String>`: `None` is `null`. -/
def encodeOptStr : Option String → Json
  | none => Json.null
  | some s => Json.str s

/-- serde encoding of `DumpMeta`: one JSON object whose keys are the Rust
field names, `settings` then `primary_key` (no rename attribute). -/
def encodeDumpMeta (m : DumpMeta) : Json :=
  Json.obj [("settings", encodeSettingsU m.settings),
            ("primary_key", encodeOptStr m.primary_key)]

/-- Decoding a JSON array's elements as strings. -/
def decodeStrs : List Json → Option (List String)
  | [] => some []
  | .str s :: rest => (decodeStrs rest).map (fun ss => s :: ss)
  | _ :: _ => none

/-- Decoding a JSON value as a list of strings. -/
def decodeStrList (j : Json) : Option (List String) :=
  match j with
  | .arr es => decodeStrs es
  | _ => none

/-- Modelled from the spec: serde decoding of one settings field — a
missing key is `NotSet`, `null` is `Reset`, an array of strings is `Set`. -/
def decodeField (fs : List (String × Json)) (k : String) : Option (Setting (List String)) :=
  match alookup fs k with
  | none => some .notSet
  | some .null => some .reset
  | some j => (decodeStrList j).map .set

/-- Modelled from the spec: serde decoding of `Settings<Unchecked>`. -/
def decodeSettingsU (j : Json) : Option SettingsU :=
  match j with
  | .obj fs => do
      let sa ← decodeField fs "searchableAttributes"
      let fa ← decodeField fs "filterableAttributes"
      let so ← decodeField fs "sortableAttributes"
      let rr ← decodeField fs "rankingRules"
      some ⟨sa, fa, so, rr⟩
  | _ => none

/-- serde decoding of the optional primary key: a missing key or `null` is
`None`, a string is `Some`. -/
def decodePk (j : Option Json) : Option (Option String) :=
  match j with
  | none => some none
  | some .null => some none
  | some (.str s) => some (some s)
  | some _ => none

/-- serde decoding of `DumpMeta` (`serde_json::from_reader` in
`load_dump`): requires a JSON object with a `settings` key; the
`primary_key` key is optional. -/
def decodeDumpMeta (j : Json) : Option DumpMeta :=
  match j with
  | .obj fs => do
      let sj ← alookup fs "settings"
      let s ← decodeSettingsU sj
      let pk ← decodePk (alookup fs "primary_key")
      some ⟨s, pk⟩
  | _ => none

/-! ## Paths

Just enough of `std::path::Path` for the `file_name` call in `load_dump`:
a path is a list of components, and `file_name` is the final component
when it is a normal name (`None` for a root, an empty path, or a path
ending in `..`). -/

inductive PathComp where
  | root
  | parent
  | name (s : String)
deriving DecidableEq

structure RPath where
  comps : List PathComp
deriving DecidableEq

/-- `Path::file_name`. -/
def RPath.fileName (p : RPath) : Option String :=
  match p.comps.getLast? with
  | some (.name s) => some s
  | _ => none

/-! ## The index and the snapshot writer -/

/-- The live index as `dump` reads it under one transaction: the documents
table (each document a list of `(field id, payload)` pairs), the
fields-ids map, the stored settings (Checked, as `settings_txn` returns
them) and the optional primary key. -/
structure Index where
  documents : List (List (Nat × Payload))
  fieldsIdsMap : FieldsIdsMap
  settings : SettingsC
  primaryKey : Option String

/-- Transaction kinds offered by the storage engine. -/
inductive TxnKind where
  | read
  | write
deriving DecidableEq

/-- Observable events of the snapshot writer, in the order `dump`
performs them. -/
inductive DEvent where
  | beginTxn (k : TxnKind)
  | createDir
  | readDocuments
  | readFieldsMap
  | writeDocFile
  | readSettings
  | readPrimaryKey
  | writeMetaFile
deriving DecidableEq

/-- A line of `documents.jsonl`: either one JSON object, or text that does
not parse as one. `dump_documents` only ever writes well-formed lines. -/
inductive Line where
  | obj (d : Doc)
  | malformed

/-- The two files of a snapshot directory: the document stream
(`documents.jsonl`) and the meta record (`meta.json`). -/
structure Snapshot where
  docLines : List Line
  metaJson : Json

/-- The body of the per-document loop of `dump_documents`: fold the
`(fid, bytes)` pairs into the `json_map`. A field id the fields-ids map
cannot resolve is skipped (`if let Some(name)`); a payload that fails
`serde_json::from_slice` aborts with an error. -/
def dumpFields (fm : FieldsIdsMap) (acc : Doc) :
    List (Nat × Payload) → Except DumpError Doc
  | [] => .ok acc
  | fp :: rest =>
      match lookupName fm fp.1 with
      | some nm =>
          match fp.2.decode with
          | some v => dumpFields fm (insertIM acc nm v) rest
          | none => .error .corruption
      | none => dumpFields fm acc rest

/-- One iteration of the document loop of `dump_documents`: the
`json_map` starts empty (it is cleared between documents). -/
def dumpOneDocument (fm : FieldsIdsMap) (fields : List (Nat × Payload)) :
    Except DumpError Doc :=
  dumpFields fm [] fields

/-- The document loop of `dump_documents`: decode each stored document in
table order, aborting on the first failure. -/
def dumpDocsList (fm : FieldsIdsMap) : List (List (Nat × Payload)) →
    Except DumpError (List Doc)
  | [] => .ok []
  | d :: ds =>
      match dumpOneDocument fm d with
      | .error e => .error e
      | .ok doc => (dumpDocsList fm ds).map (fun docs => doc :: docs)

/-- `Index::dump_documents`: emit one JSON object per stored document, in
table order, aborting on the first decode failure. -/
def dumpDocuments (idx : Index) : Except DumpError (List Line) :=
  (dumpDocsList idx.fieldsIdsMap idx.documents).map
    (fun docs => docs.map Line.obj)

/-- `Index::dump_meta`: serialize current settings downgraded to Unchecked
plus the optional primary key as one JSON object. -/
def dumpMetaJson (idx : Index) : Json :=
  encodeDumpMeta ⟨idx.settings.into_unchecked, idx.primaryKey⟩

/-- Result of `Index::dump`: the event trace, the snapshot files if the
dump completed, and the overall outcome. -/
structure DumpResult where
  trace : List DEvent
  snapshot : Option Snapshot
  result : Except DumpError Unit

/-- `Index::dump`: acquire a *write* transaction (the code comment:
"acquire write txn make sure any ongoing write is finished before we
start"), create `<path>/indexes/<uuid>/`, then `dump_documents` and
`dump_meta` under that same transaction. -/
def dump (idx : Index) : DumpResult :=
  let pre := [DEvent.beginTxn TxnKind.write, DEvent.createDir,
              DEvent.readDocuments, DEvent.readFieldsMap]
  match dumpDocuments idx with
  | .error e => ⟨pre, none, .error e⟩
  | .ok lines =>
      ⟨pre ++ [DEvent.writeDocFile, DEvent.readSettings,
               DEvent.readPrimaryKey, DEvent.writeMetaFile],
       some ⟨lines, dumpMetaJson idx⟩, .ok ()⟩

/-! ## The snapshot restorer -/

/-- The committed state of the destination storage environment: its
documents, settings and primary key. A freshly created environment is
empty; staged writes become visible only at `txn.commit()`. -/
structure Store where
  documents : List Doc
  settings : Option SettingsC
  primaryKey : Option String

/-- The state of a freshly created environment. -/
def Store.empty : Store := ⟨[], none, none⟩

/-- What `load_dump` finds at the source directory: the contents of
`meta.json` (`none` when the file cannot be opened) and of
`documents.jsonl` (idem). -/
structure SourceFS where
  metaFile : Option Json
  docFile : Option (List Line)

/-- Observable events of the snapshot restorer, in the order `load_dump`
performs them. -/
inductive LEvent where
  | createDir
  | readMeta
  | checkSettings
  | openEnv
  | beginWriteTxn
  | setPrimaryKey (pk : String)
  | applySettings (s : SettingsC)
  | readDocFile
  | normalize
  | bulkLoad (batch : List Doc)
  | commit
  | closeEnv

/-- `read_ndjson` (Document Normalization Pipeline): stream the
line-delimited JSON documents into the canonical batch encoding,
preserving encounter order; a malformed line is a fatal format error;
empty input yields an explicitly empty batch. The pipeline's source is
outside the given slice; modelled from the spec. -/
def read_ndjson : List Line → Except DumpError (List Doc)
  | [] => .ok []
  | .obj d :: rest => (read_ndjson rest).map (fun ds => d :: ds)
  | .malformed :: _ => .error .format

/-- Modelled from the spec: downstream primary-key inference of the bulk
loader — scan candidate fields across all documents in encounter order. -/
def inferPrimaryKey (batch : List Doc) : Option String :=
  (batch.flatMap (fun d => d.map (fun p => p.1))).find? (fun nm => nm = "id")

/-- Modelled from the spec: the milli bulk document loader under the open
write transaction. With no primary key established it must infer one, and
fails with "no primary key could be inferred" when it cannot. -/
def bulkLoad (st : Store) (batch : List Doc) : Except DumpError Store :=
  match st.primaryKey with
  | some _ => .ok { st with documents := st.documents ++ batch }
  | none =>
      match inferPrimaryKey batch with
      | some pk =>
          .ok { st with primaryKey := some pk, documents := st.documents ++ batch }
      | none => .error .noPrimaryKey

/-- The builder events recording the explicit `set_primary_key` call,
performed exactly when the meta record carries a primary-key name. -/
def pkEvents : Option String → List LEvent
  | some pk => [LEvent.setPrimaryKey pk]
  | none => []

/-- Result of `Index::load_dump`: the event trace, the committed state of
the destination environment (`none` when it was never created), and the
overall outcome. -/
structure LoadResult where
  trace : List LEvent
  dest : Option Store
  result : Except DumpError Unit

/-- `Index::load_dump`, step by step as the source performs it:
derive the destination name from the source path's base name (failing
before anything else when there is none); create the destination
directory; read and deserialize `meta.json`; `check()` the settings; open
the environment; open one write transaction; set the primary key when
present and apply the Checked settings through the settings builder;
normalize `documents.jsonl` through `read_ndjson`; skip the bulk loader
when the batch is empty; commit; close. Any error drops the transaction
uncommitted, leaving the environment in its fresh empty state. -/
def loadDump (src : RPath) (fs : SourceFS) : LoadResult :=
  match src.fileName with
  | none => ⟨[], none, .error .invalidDumpIndex⟩
  | some _ =>
    let tr1 := [LEvent.createDir]
    match fs.metaFile with
    | none => ⟨tr1, none, .error .io⟩
    | some mj =>
      let tr2 := tr1 ++ [LEvent.readMeta]
      match decodeDumpMeta mj with
      | none => ⟨tr2, none, .error .schema⟩
      | some meta =>
        let checked := meta.settings.check
        let tr3 := tr2 ++ [LEvent.checkSettings, LEvent.openEnv, LEvent.beginWriteTxn]
        let staged1 : Store :=
          match meta.primary_key with
          | some pk => { Store.empty with primaryKey := some pk }
          | none => Store.empty
        let trPk := pkEvents meta.primary_key
        let staged2 := { staged1 with settings := some checked }
        let tr4 := tr3 ++ trPk ++ [LEvent.applySettings checked]
        match fs.docFile with
        | none => ⟨tr4, some Store.empty, .error .io⟩
        | some lines =>
          let tr5 := tr4 ++ [LEvent.readDocFile, LEvent.normalize]
          match read_ndjson lines with
          | .error e => ⟨tr5, some Store.empty, .error e⟩
          | .ok batch =>
            if batch.isEmpty then
              ⟨tr5 ++ [LEvent.commit, LEvent.closeEnv], some staged2, .ok ()⟩
            else
              match bulkLoad staged2 batch with
              | .error e => ⟨tr5 ++ [LEvent.bulkLoad batch], some Store.empty, .error e⟩
              | .ok staged3 =>
                  ⟨tr5 ++ [LEvent.bulkLoad batch, LEvent.commit, LEvent.closeEnv],
                   some staged3, .ok ()⟩

/-! ## Reference decoding of stored documents

`decodeStoredFields` is the pure decoding of one stored document through
the fields-ids map — the name→value object that `dump_documents` emits for
it when every payload decodes (unresolvable ids skipped, as in the code). -/

def decodeStoredFields (fm : FieldsIdsMap) (acc : Doc) :
    List (Nat × Payload) → Doc
  | [] => acc
  | fp :: rest =>
      match lookupName fm fp.1, fp.2.decode with
      | some nm, some v => decodeStoredFields fm (insertIM acc nm v) rest
      | _, _ => decodeStoredFields fm acc rest

/-- The documents of an index in their decoded name→value form — "the
original's documents" of the round-trip property. -/
def Index.decodedDocuments (idx : Index) : List Doc :=
  idx.documents.map (fun d => decodeStoredFields idx.fieldsIdsMap [] d)

/-! ## Concrete sample values (used by witnesses and counterexamples) -/

/-- Sample Checked settings. -/
def settingsC0 : SettingsC :=
  ⟨Setting.set ["title"], Setting.reset, Setting.notSet, Setting.set ["words"]⟩

/-- The worked example of the spec (§8): two documents
`{"id":1,"title":"a"}`, `{"id":2,"title":"b"}`, primary key `"id"`. -/
def idx0 : Index :=
  ⟨[[(0, Payload.val (Json.num 1)), (1, Payload.val (Json.str "a"))],
    [(0, Payload.val (Json.num 2)), (1, Payload.val (Json.str "b"))]],
   [(0, "id"), (1, "title")], settingsC0, some "id"⟩

/-- An index whose single document carries a field id (5) absent from the
fields-ids map, with an undecodable payload. -/
def idxBadField : Index := ⟨[[(5, Payload.corrupt)]], [], settingsC0, none⟩

/-- An index whose single document has a resolvable field id with an
undecodable payload. -/
def idxCorrupt : Index :=
  ⟨[[(0, Payload.corrupt)]], [(0, "id")], settingsC0, some "id"⟩

/-- An index with zero documents. -/
def idxEmpty : Index := ⟨[], [(0, "id")], settingsC0, none⟩

/-- A source path with no base name (a filesystem root). -/
def srcRoot : RPath := ⟨[PathComp.root]⟩

/-- A well-formed source path, base name `myindex`. -/
def srcGood : RPath := ⟨[PathComp.root, PathComp.name "dumps", PathComp.name "myindex"]⟩

/-- A sample meta record. -/
def meta0 : DumpMeta :=
  ⟨⟨Setting.set ["title"], Setting.reset, Setting.notSet, Setting.set ["words"]⟩,
   some "id"⟩

/-! ## Helper lemmas: serde round-trip of the meta record -/

theorem decodeStrs_map (xs : List String) :
    decodeStrs (xs.map Json.str) = some xs := by
  induction xs with
  | nil => rfl
  | cons x rest ih => simp [decodeStrs, ih]

theorem alookup_append (l1 l2 : List (String × Json)) (k : String) :
    alookup (l1 ++ l2) k =
      match alookup l1 k with
      | some v => some v
      | none => alookup l2 k := by
  induction l1 with
  | nil => simp [alookup]
  | cons p rest ih =>
      by_cases h : p.1 = k <;> simp [alookup, h, ih]

theorem alookup_encField_ne (k k' : String) (x : Setting (List String))
    (h : ¬ k = k') : alookup (encField k x) k' = none := by
  cases x <;> simp [encField, alookup, h]

theorem alookup_encField_self (k : String) (x : Setting (List String)) :
    alookup (encField k x) k =
      match x with
      | .notSet => none
      | .reset => some Json.null
      | .set xs => some (Json.arr (xs.map Json.str)) := by
  cases x <;> simp [encField, alookup]

theorem decodeField_of_alookup (fs : List (String × Json)) (k : String)
    (x : Setting (List String))
    (h : alookup fs k = alookup (encField k x) k) :
    decodeField fs k = some x := by
  cases x with
  | notSet => simp [alookup_encField_self] at h; simp [decodeField, h]
  | reset => simp [alookup_encField_self] at h; simp [decodeField, h]
  | set xs =>
      simp [alookup_encField_self] at h
      simp [decodeField, h, decodeStrList, decodeStrs_map]

theorem decode_encode_settingsU (s : SettingsU) :
    decodeSettingsU (encodeSettingsU s) = some s := by
  obtain ⟨sa, fa, so, rr⟩ := s
  cases sa <;> cases fa <;> cases so <;> cases rr <;>
    simp [encodeSettingsU, decodeSettingsU, encField, alookup, decodeField,
          decodeStrList, decodeStrs_map]

theorem decode_encode_dumpMeta (m : DumpMeta) :
    decodeDumpMeta (encodeDumpMeta m) = some m := by
  obtain ⟨s, pk⟩ := m
  cases pk <;>
    simp [encodeDumpMeta, decodeDumpMeta, alookup, encodeOptStr, decodePk,
          decode_encode_settingsU]

/-! ## Helper lemmas: settings, normalization, document decoding -/

theorem check_into_unchecked (c : SettingsC) :
    (SettingsC.into_unchecked c).check = c := rfl

theorem except_map_ok {α β ε : Type} (f : α → β) (a : α) :
    Except.map f (Except.ok a : Except ε α) = .ok (f a) := rfl

theorem except_map_error {α β ε : Type} (f : α → β) (e : ε) :
    Except.map f (Except.error e : Except ε α) = .error e := rfl

theorem read_ndjson_objs (ds : List Doc) :
    read_ndjson (ds.map Line.obj) = .ok ds := by
  induction ds with
  | nil => rfl
  | cons d rest ih => simp [read_ndjson, ih, except_map_ok]

theorem read_ndjson_of_malformed (lines : List Line)
    (h : Line.malformed ∈ lines) : read_ndjson lines = .error .format := by
  induction lines with
  | nil => cases h
  | cons l rest ih =>
      cases l with
      | malformed => rfl
      | obj d =>
          have : Line.malformed ∈ rest := by
            cases h with
            | tail _ h' => exact h'
          simp [read_ndjson, ih this, except_map_error]

theorem dumpFields_ok_of_clean (fm : FieldsIdsMap)
    (fields : List (Nat × Payload))
    (h : ∀ fp ∈ fields, (lookupName fm fp.1).isSome ∧ (fp.2.decode).isSome) :
    ∀ acc, dumpFields fm acc fields = .ok (decodeStoredFields fm acc fields) := by
  induction fields with
  | nil => intro acc; rfl
  | cons fp rest ih =>
      intro acc
      obtain ⟨h1, h2⟩ := h fp (List.mem_cons_self _ _)
      obtain ⟨nm, hnm⟩ := Option.isSome_iff_exists.mp h1
      obtain ⟨v, hv⟩ := Option.isSome_iff_exists.mp h2
      have hrest : ∀ fp ∈ rest, (lookupName fm fp.1).isSome ∧ (fp.2.decode).isSome :=
        fun q hq => h q (List.mem_cons_of_mem _ hq)
      simp [dumpFields, decodeStoredFields, hnm, hv, ih hrest]

theorem dumpDocsList_ok_of_clean (fm : FieldsIdsMap)
    (docs : List (List (Nat × Payload)))
    (h : ∀ d ∈ docs, ∀ fp ∈ d, (lookupName fm fp.1).isSome ∧ (fp.2.decode).isSome) :
    dumpDocsList fm docs = .ok (docs.map (fun d => decodeStoredFields fm [] d)) := by
  induction docs with
  | nil => rfl
  | cons d rest ih =>
      have hd := dumpFields_ok_of_clean fm d (h d (List.mem_cons_self _ _)) []
      have hrest := ih (fun q hq => h q (List.mem_cons_of_mem _ hq))
      simp [dumpDocsList, dumpOneDocument, hd, hrest, except_map_ok]

theorem dumpFields_error_kind (fm : FieldsIdsMap)
    (fields : List (Nat × Payload)) :
    ∀ acc e, dumpFields fm acc fields = .error e → e = .corruption := by
  induction fields with
  | nil => intro acc e h; cases h
  | cons fp rest ih =>
      intro acc e h
      rcases hnm : lookupName fm fp.1 with _ | nm
      · rw [dumpFields, hnm] at h
        exact ih acc e h
      · rcases hv : fp.2.decode with _ | v
        · rw [dumpFields, hnm, hv] at h
          cases h; rfl
        · rw [dumpFields, hnm, hv] at h
          exact ih _ e h

theorem dumpFields_error_of_corrupt (fm : FieldsIdsMap)
    (fields : List (Nat × Payload))
    (h : ∃ fp ∈ fields, (lookupName fm fp.1).isSome ∧ fp.2.decode = none) :
    ∀ acc, dumpFields fm acc fields = .error .corruption := by
  induction fields with
  | nil => obtain ⟨fp, hfp, _⟩ := h; cases hfp
  | cons q rest ih =>
      intro acc
      obtain ⟨fp, hfp, hsome, hnone⟩ := h
      rcases List.mem_cons.mp hfp with rfl | hmem
      · obtain ⟨nm, hnm⟩ := Option.isSome_iff_exists.mp hsome
        simp [dumpFields, hnm, hnone]
      · rcases hnm : lookupName fm q.1 with _ | nm
        · rw [dumpFields, hnm]
          exact ih ⟨fp, hmem, hsome, hnone⟩ acc
        · rcases hv : q.2.decode with _ | v
          · simp [dumpFields, hnm, hv]
          · rw [dumpFields, hnm, hv]
            exact ih ⟨fp, hmem, hsome, hnone⟩ _

theorem dumpDocsList_error_of_corrupt (fm : FieldsIdsMap)
    (docs : List (List (Nat × Payload)))
    (h : ∃ d ∈ docs, ∃ fp ∈ d, (lookupName fm fp.1).isSome ∧ fp.2.decode = none) :
    dumpDocsList fm docs = .error .corruption := by
  induction docs with
  | nil => obtain ⟨d, hd, _⟩ := h; cases hd
  | cons d rest ih =>
      obtain ⟨d', hd', hw⟩ := h
      rcases List.mem_cons.mp hd' with rfl | hmem
      · have := dumpFields_error_of_corrupt fm d' hw []
        simp [dumpDocsList, dumpOneDocument, this]
      · rcases hone : dumpOneDocument fm d with e | doc
        · have := dumpFields_error_kind fm d [] e hone
          subst this
          simp [dumpDocsList, hone]
        · simp [dumpDocsList, hone, ih ⟨d', hmem, hw⟩, except_map_error]

theorem dumpFields_skip_unresolvable (fm : FieldsIdsMap)
    (fields : List (Nat × Payload)) :
    ∀ acc, dumpFields fm acc
        (fields.filter (fun fp => (lookupName fm fp.1).isSome)) =
      dumpFields fm acc fields := by
  induction fields with
  | nil => intro acc; rfl
  | cons fp rest ih =>
      intro acc
      rcases hnm : lookupName fm fp.1 with _ | nm
      · simp [List.filter_cons, hnm, dumpFields, ih]
      · rcases hv : fp.2.decode with _ | v <;>
          simp [List.filter_cons, hnm, dumpFields, hv, ih]

/-! ## Helper lemmas: evaluating `loadDump` -/

theorem loadDump_trace_shape (src : RPath) (s : String)
    (hs : src.fileName = some s) (mj : Json) (meta : DumpMeta)
    (hmj : decodeDumpMeta mj = some meta) (df : Option (List Line)) :
    ∃ post,
      (loadDump src ⟨some mj, df⟩).trace =
        ([LEvent.createDir, LEvent.readMeta, LEvent.checkSettings,
          LEvent.openEnv, LEvent.beginWriteTxn] ++ pkEvents meta.primary_key ++
          [LEvent.applySettings meta.settings.check]) ++ post ∧
      (∀ c, LEvent.applySettings c ∉ post) := by
  cases df with
  | none =>
      refine ⟨[], ?_, by simp⟩
      simp [loadDump, hs, hmj]
  | some lines =>
      rcases hnd : read_ndjson lines with e | batch
      · refine ⟨[LEvent.readDocFile, LEvent.normalize], ?_, by simp⟩
        simp [loadDump, hs, hmj, hnd]
      · by_cases hb : batch.isEmpty
        · refine ⟨[LEvent.readDocFile, LEvent.normalize, LEvent.commit,
                   LEvent.closeEnv], ?_, by simp⟩
          simp [loadDump, hs, hmj, hnd, hb]
        · rw [Bool.not_eq_true] at hb
          simp only [loadDump, hs, hmj, hnd, hb, Bool.false_eq_true, if_false]
          split
          · exact ⟨[LEvent.readDocFile, LEvent.normalize,
                    LEvent.bulkLoad batch], by simp, by simp⟩
          · exact ⟨[LEvent.readDocFile, LEvent.normalize,
                    LEvent.bulkLoad batch, LEvent.commit, LEvent.closeEnv],
                   by simp, by simp⟩

theorem loadDump_good (src : RPath) (s : String) (hs : src.fileName = some s)
    (mj : Json) (meta : DumpMeta) (hmj : decodeDumpMeta mj = some meta)
    (docs : List Doc) (hpk : docs = [] ∨ meta.primary_key.isSome) :
    (loadDump src ⟨some mj, some (docs.map Line.obj)⟩).result = .ok () ∧
    (loadDump src ⟨some mj, some (docs.map Line.obj)⟩).dest =
      some ⟨docs, some meta.settings.check, meta.primary_key⟩ := by
  rcases hpk with hnil | hsome
  · subst hnil
    cases hpkc : meta.primary_key <;>
      simp [loadDump, hs, hmj, read_ndjson, hpkc, Store.empty]
  · obtain ⟨pk, hpkc⟩ := Option.isSome_iff_exists.mp hsome
    cases docs with
    | nil =>
        simp [loadDump, hs, hmj, read_ndjson, hpkc, Store.empty]
    | cons d0 drest =>
        have hnd : read_ndjson (Line.obj d0 :: List.map Line.obj drest) =
            .ok (d0 :: drest) := read_ndjson_objs (d0 :: drest)
        simp [loadDump, hs, hmj, hnd, hpkc, Store.empty, bulkLoad]

theorem loadDump_empty_stream (src : RPath) (s : String)
    (hs : src.fileName = some s) (mj : Json) (meta : DumpMeta)
    (hmj : decodeDumpMeta mj = some meta) :
    (loadDump src ⟨some mj, some []⟩).result = .ok () ∧
    (∀ b, LEvent.bulkLoad b ∉ (loadDump src ⟨some mj, some []⟩).trace) := by
  cases hpkc : meta.primary_key <;>
    simp [loadDump, hs, hmj, read_ndjson, hpkc, pkEvents]

theorem encField_key (k : String) (x : Setting (List String)) :
    ∀ p ∈ encField k x, p.1 = k := by
  cases x <;> simp [encField]

/-! ## Claim C9 -/

/-- C9: For every `(Settings<Unchecked>, Option<String>)` pair, encoding the
meta record to JSON and decoding it back is the identity. -/
theorem claim_C9_meta_encode_decode_id (s : SettingsU) (pk : Option String) :
    decodeDumpMeta (encodeDumpMeta ⟨s, pk⟩) = some ⟨s, pk⟩ :=
  decode_encode_dumpMeta ⟨s, pk⟩

/-! ## Claim C7 -/

/-- C7 counterexample: the meta record `dump` writes for the spec's worked
example has no `"primaryKey"` key — the serde derive on `DumpMeta` carries
no camelCase rename, so the key is the Rust field name `"primary_key"`. -/
theorem claim_C7_counterexample :
    ∃ fs, dumpMetaJson idx0 = Json.obj fs ∧
      alookup fs "primaryKey" = none ∧
      alookup fs "primary_key" = some (Json.str "id") := by
  exact ⟨[("settings", encodeSettingsU (SettingsC.into_unchecked settingsC0)),
          ("primary_key", Json.str "id")], rfl, rfl, rfl⟩

/-- C7 (amended): the meta record `dump` writes is exactly one JSON object
with a `"settings"` key holding the Unchecked settings with camelCase keys
and a `"primary_key"` key (snake_case, the Rust field name) holding a
string or null. -/
theorem claim_C7_meta_record_shape (idx : Index) :
    dumpMetaJson idx =
      Json.obj [("settings", encodeSettingsU idx.settings.into_unchecked),
                ("primary_key", encodeOptStr idx.primaryKey)] ∧
    (∀ fs, encodeSettingsU idx.settings.into_unchecked = Json.obj fs →
      ∀ p ∈ fs, p.1 ∈ ["searchableAttributes", "filterableAttributes",
                       "sortableAttributes", "rankingRules"]) ∧
    (encodeOptStr idx.primaryKey = Json.null ∨
      ∃ s, encodeOptStr idx.primaryKey = Json.str s) := by
  refine ⟨rfl, ?_, ?_⟩
  · intro fs hfs p hp
    simp only [encodeSettingsU, Json.obj.injEq] at hfs
    subst hfs
    simp only [List.append_assoc, List.mem_append] at hp
    rcases hp with h | h | h | h
    · simp [encField_key _ _ p h]
    · simp [encField_key _ _ p h]
    · simp [encField_key _ _ p h]
    · simp [encField_key _ _ p h]
  · cases idx.primaryKey <;> simp [encodeOptStr]

/-! ## Claim C10 -/

/-- C10: when the source path's final component cannot be extracted as a
base name, `load_dump` errors before creating the destination directory,
opening any storage environment, or reading the meta record (empty trace,
no environment). -/
theorem claim_C10_invalid_src (src : RPath) (fs : SourceFS)
    (h : src.fileName = none) :
    loadDump src fs = ⟨[], none, .error .invalidDumpIndex⟩ := by
  simp [loadDump, h]

/-- C10 witness: a filesystem root as source path. -/
theorem claim_C10_invalid_src_witness :
    srcRoot.fileName = none ∧
    loadDump srcRoot ⟨none, none⟩ = ⟨[], none, .error .invalidDumpIndex⟩ :=
  ⟨rfl, claim_C10_invalid_src srcRoot ⟨none, none⟩ rfl⟩

/-! ## Claim C4 -/

/-- C4 counterexample: `dump` does not open a *read* transaction — the
trace of dumping the spec's worked example contains no read-transaction
event, only a write-transaction one (`self.env.write_txn()`). -/
theorem claim_C4_counterexample :
    DEvent.beginTxn TxnKind.read ∉ (dump idx0).trace ∧
    DEvent.beginTxn TxnKind.write ∈ (dump idx0).trace := by
  decide

/-- C4 (amended): `dump` opens a single transaction — a *write*
transaction (blocking until any in-flight write completes) — as its very
first action, and every subsequent read (documents, fields-ids map,
settings, primary key) happens under it; no second transaction is ever
opened. -/
theorem claim_C4_single_write_txn (idx : Index) :
    ∃ rest, (dump idx).trace = DEvent.beginTxn TxnKind.write :: rest ∧
      DEvent.beginTxn TxnKind.write ∉ rest ∧
      DEvent.beginTxn TxnKind.read ∉ rest := by
  cases h : dumpDocuments idx with
  | error e =>
      refine ⟨[DEvent.createDir, DEvent.readDocuments, DEvent.readFieldsMap],
              ?_, by decide, by decide⟩
      simp [dump, h]
  | ok lines =>
      refine ⟨[DEvent.createDir, DEvent.readDocuments, DEvent.readFieldsMap,
               DEvent.writeDocFile, DEvent.readSettings, DEvent.readPrimaryKey,
               DEvent.writeMetaFile], ?_, by decide, by decide⟩
      simp [dump, h]

/-! ## Claim C6 -/

/-- C6 counterexample: a document field whose id is absent from the
fields-ids map does not abort the dump — the field (its payload is not
even decoded, though undecodable) is silently skipped and the dump
succeeds, emitting the document without that field. -/
theorem claim_C6_counterexample :
    (∃ d ∈ idxBadField.documents, ∃ fp ∈ d,
        lookupName idxBadField.fieldsIdsMap fp.1 = none ∧ fp.2.decode = none) ∧
    (dump idxBadField).result = .ok () ∧
    (dump idxBadField).snapshot = some ⟨[Line.obj []], dumpMetaJson idxBadField⟩ := by
  refine ⟨⟨[(5, Payload.corrupt)], ?_, (5, Payload.corrupt), ?_, rfl, rfl⟩, rfl, rfl⟩
  · simp [idxBadField]
  · simp

/-- C6 (amended): a stored payload that cannot be decoded *and whose field
id resolves in the fields-ids map* is a Corruption error aborting the
entire dump with no partial success (no snapshot); a field id that cannot
be resolved is instead silently skipped (dumping is unchanged if
unresolvable fields are removed first). -/
theorem claim_C6_corruption_policy :
    (∀ idx : Index,
      (∃ d ∈ idx.documents, ∃ fp ∈ d,
        (lookupName idx.fieldsIdsMap fp.1).isSome ∧ fp.2.decode = none) →
      (dump idx).result = .error .corruption ∧ (dump idx).snapshot = none) ∧
    (∀ (fm : FieldsIdsMap) (fields : List (Nat × Payload)),
      dumpOneDocument fm (fields.filter (fun fp => (lookupName fm fp.1).isSome)) =
        dumpOneDocument fm fields) := by
  constructor
  · intro idx h
    have h1 := dumpDocsList_error_of_corrupt idx.fieldsIdsMap idx.documents h
    have h2 : dumpDocuments idx = .error .corruption := by
      simp [dumpDocuments, h1, except_map_error]
    constructor <;> simp [dump, h2]
  · intro fm fields
    exact dumpFields_skip_unresolvable fm fields []

/-- C6 witness: dumping an index with a resolvable but undecodable payload
aborts with a Corruption error and no snapshot. -/
theorem claim_C6_corruption_policy_witness :
    (dump idxCorrupt).result = .error .corruption ∧
    (dump idxCorrupt).snapshot = none :=
  claim_C6_corruption_policy.1 idxCorrupt
    ⟨[(0, Payload.corrupt)], by simp [idxCorrupt], (0, Payload.corrupt),
     by simp, rfl, rfl⟩

/-! ## Claim C3 -/

/-- C3: dumping an index with zero documents produces an empty document
stream, and restoring a snapshot whose document stream is empty succeeds
without ever invoking the bulk loader (hence without a
primary-key-inference error). -/
theorem claim_C3_empty_roundtrip (idx : Index) (hempty : idx.documents = [])
    (src : RPath) (s : String) (hs : src.fileName = some s) :
    ∃ snap : Snapshot,
      (dump idx).result = .ok () ∧
      (dump idx).snapshot = some snap ∧ snap.docLines = [] ∧
      (loadDump src ⟨some snap.metaJson, some snap.docLines⟩).result = .ok () ∧
      ∀ b, LEvent.bulkLoad b ∉
        (loadDump src ⟨some snap.metaJson, some snap.docLines⟩).trace := by
  have hdd : dumpDocuments idx = .ok [] := by
    simp [dumpDocuments, hempty, dumpDocsList, except_map_ok]
  refine ⟨⟨[], dumpMetaJson idx⟩, ?_, ?_, rfl, ?_, ?_⟩
  · simp [dump, hdd]
  · simp [dump, hdd]
  · exact (loadDump_empty_stream src s hs (dumpMetaJson idx) _
      (decode_encode_dumpMeta _)).1
  · exact (loadDump_empty_stream src s hs (dumpMetaJson idx) _
      (decode_encode_dumpMeta _)).2

/-- C3 witness: the empty index restored through a concrete path. -/
theorem claim_C3_empty_roundtrip_witness :
    idxEmpty.documents = [] ∧
    ∃ snap : Snapshot,
      (dump idxEmpty).result = .ok () ∧
      (dump idxEmpty).snapshot = some snap ∧ snap.docLines = [] ∧
      (loadDump srcGood ⟨some snap.metaJson, some snap.docLines⟩).result = .ok () ∧
      ∀ b, LEvent.bulkLoad b ∉
        (loadDump srcGood ⟨some snap.metaJson, some snap.docLines⟩).trace :=
  ⟨rfl, claim_C3_empty_roundtrip idxEmpty rfl srcGood "myindex" rfl⟩

/-! ## Claim C2 -/

/-- C2: if normalization fails during `load_dump` (a malformed line), the
write transaction is never committed — the destination environment, though
created on disk, ends with zero documents and no settings. -/
theorem claim_C2_atomic_on_malformed (src : RPath) (s : String)
    (hs : src.fileName = some s) (mj : Json) (meta : DumpMeta)
    (hmj : decodeDumpMeta mj = some meta) (lines : List Line)
    (hmal : Line.malformed ∈ lines) :
    (loadDump src ⟨some mj, some lines⟩).result = .error .format ∧
    LEvent.commit ∉ (loadDump src ⟨some mj, some lines⟩).trace ∧
    (loadDump src ⟨some mj, some lines⟩).dest = some Store.empty := by
  have hnd := read_ndjson_of_malformed lines hmal
  cases hpkc : meta.primary_key <;>
    simp [loadDump, hs, hmj, hnd, hpkc, pkEvents, Store.empty]

/-- C2 witness: a concrete malformed document stream. -/
theorem claim_C2_atomic_on_malformed_witness :
    (loadDump srcGood ⟨some (encodeDumpMeta meta0), some [Line.malformed]⟩).result
        = .error .format ∧
    LEvent.commit ∉
      (loadDump srcGood ⟨some (encodeDumpMeta meta0), some [Line.malformed]⟩).trace ∧
    (loadDump srcGood ⟨some (encodeDumpMeta meta0), some [Line.malformed]⟩).dest
        = some Store.empty :=
  claim_C2_atomic_on_malformed srcGood "myindex" rfl (encodeDumpMeta meta0) meta0
    (decode_encode_dumpMeta meta0) [Line.malformed] (List.mem_singleton.mpr rfl)

/-! ## Claim C5 -/

/-- C5: during `load_dump` the Unchecked settings deserialized from the
meta record pass through the explicit `check()` conversion before any
settings are applied, and every settings application carries exactly the
Checked conversion of the meta's settings — only the Checked
representation reaches the indexer. -/
theorem claim_C5_checked_settings (src : RPath) (s : String)
    (hs : src.fileName = some s) (mj : Json) (meta : DumpMeta)
    (hmj : decodeDumpMeta mj = some meta) (df : Option (List Line)) :
    (∀ c, LEvent.applySettings c ∈ (loadDump src ⟨some mj, df⟩).trace →
        c = meta.settings.check) ∧
    (∃ pre post, (loadDump src ⟨some mj, df⟩).trace = pre ++ post ∧
        LEvent.checkSettings ∈ pre ∧
        (∀ c, LEvent.applySettings c ∉ pre) ∧
        LEvent.applySettings meta.settings.check ∈ post) := by
  obtain ⟨post, htr, hpost⟩ := loadDump_trace_shape src s hs mj meta hmj df
  constructor
  · intro c hc
    rw [htr] at hc
    rcases List.mem_append.mp hc with h1 | h2
    · rcases List.mem_append.mp h1 with h3 | h4
      · rcases List.mem_append.mp h3 with h5 | h6
        · simp at h5
        · rcases hpkc : meta.primary_key with _ | pk <;> rw [hpkc] at h6 <;>
            simp [pkEvents] at h6
      · simpa using h4
    · exact absurd h2 (hpost c)
  · refine ⟨[LEvent.createDir, LEvent.readMeta, LEvent.checkSettings],
            [LEvent.openEnv, LEvent.beginWriteTxn] ++ pkEvents meta.primary_key ++
              [LEvent.applySettings meta.settings.check] ++ post,
            ?_, by simp, by intro c; simp, by simp⟩
    rw [htr]
    simp

/-- C5 witness: the concrete meta record through a concrete path. -/
theorem claim_C5_checked_settings_witness :
    (∀ c, LEvent.applySettings c ∈
        (loadDump srcGood ⟨some (encodeDumpMeta meta0), none⟩).trace →
        c = meta0.settings.check) ∧
    (∃ pre post,
        (loadDump srcGood ⟨some (encodeDumpMeta meta0), none⟩).trace = pre ++ post ∧
        LEvent.checkSettings ∈ pre ∧
        (∀ c, LEvent.applySettings c ∉ pre) ∧
        LEvent.applySettings meta0.settings.check ∈ post) :=
  claim_C5_checked_settings srcGood "myindex" rfl (encodeDumpMeta meta0) meta0
    (decode_encode_dumpMeta meta0) none

/-! ## Claim C8 -/

/-- C8: in `load_dump`, settings — including the primary key set
explicitly when present in the meta record — are applied before any
document reaches the bulk loader: the trace splits into a prefix holding
the settings application (and the explicit `set_primary_key`) and a
suffix holding every bulk-load event. -/
theorem claim_C8_settings_before_documents (src : RPath) (s : String)
    (hs : src.fileName = some s) (mj : Json) (meta : DumpMeta)
    (hmj : decodeDumpMeta mj = some meta) (df : Option (List Line)) :
    ∃ pre post, (loadDump src ⟨some mj, df⟩).trace = pre ++ post ∧
      LEvent.applySettings meta.settings.check ∈ pre ∧
      (∀ pk, meta.primary_key = some pk → LEvent.setPrimaryKey pk ∈ pre) ∧
      (∀ b, LEvent.bulkLoad b ∉ pre) := by
  obtain ⟨post, htr, -⟩ := loadDump_trace_shape src s hs mj meta hmj df
  refine ⟨_, post, htr, by simp, ?_, ?_⟩
  · intro pk hpk
    rw [hpk]
    simp [pkEvents]
  · intro b
    rcases hpkc : meta.primary_key with _ | pk <;> simp [pkEvents, hpkc]

/-- C8 witness: a concrete restore with a primary key in the meta record
and one document line. -/
theorem claim_C8_settings_before_documents_witness :
    ∃ pre post,
      (loadDump srcGood ⟨some (encodeDumpMeta meta0),
          some [Line.obj [("id", Json.num 1)]]⟩).trace = pre ++ post ∧
      LEvent.applySettings meta0.settings.check ∈ pre ∧
      (∀ pk, meta0.primary_key = some pk → LEvent.setPrimaryKey pk ∈ pre) ∧
      (∀ b, LEvent.bulkLoad b ∉ pre) :=
  claim_C8_settings_before_documents srcGood "myindex" rfl (encodeDumpMeta meta0)
    meta0 (decode_encode_dumpMeta meta0) (some [Line.obj [("id", Json.num 1)]])

/-! ## Claim C1 -/

/-- C1: dumping an index and restoring the resulting snapshot into a fresh
destination yields a store whose document set is set-equal to the
original's (decoded) documents and whose Checked settings equal the
original's Checked settings. Hypotheses: the source path has a base name;
every stored field id resolves and every payload decodes (no corruption);
a non-empty index has a primary key. -/
theorem claim_C1_dump_restore_roundtrip (idx : Index) (src : RPath) (s : String)
    (hs : src.fileName = some s)
    (hclean : ∀ d ∈ idx.documents, ∀ fp ∈ d,
      (lookupName idx.fieldsIdsMap fp.1).isSome ∧ (fp.2.decode).isSome)
    (hpk : idx.documents = [] ∨ idx.primaryKey.isSome) :
    ∃ snap store,
      (dump idx).result = .ok () ∧
      (dump idx).snapshot = some snap ∧
      (loadDump src ⟨some snap.metaJson, some snap.docLines⟩).result = .ok () ∧
      (loadDump src ⟨some snap.metaJson, some snap.docLines⟩).dest = some store ∧
      (∀ d, d ∈ store.documents ↔ d ∈ idx.decodedDocuments) ∧
      store.settings = some idx.settings := by
  have hdd : dumpDocuments idx = .ok (idx.decodedDocuments.map Line.obj) := by
    simp [dumpDocuments, dumpDocsList_ok_of_clean idx.fieldsIdsMap idx.documents hclean,
          except_map_ok, Index.decodedDocuments]
  have hmeta : decodeDumpMeta (dumpMetaJson idx) =
      some ⟨idx.settings.into_unchecked, idx.primaryKey⟩ :=
    decode_encode_dumpMeta _
  have hpk' : idx.decodedDocuments = [] ∨
      (⟨idx.settings.into_unchecked, idx.primaryKey⟩ : DumpMeta).primary_key.isSome := by
    rcases hpk with h | h
    · left; simp [Index.decodedDocuments, h]
    · right; exact h
  obtain ⟨hres, hdest⟩ := loadDump_good src s hs (dumpMetaJson idx) _ hmeta
      idx.decodedDocuments hpk'
  refine ⟨⟨idx.decodedDocuments.map Line.obj, dumpMetaJson idx⟩,
          ⟨idx.decodedDocuments, some idx.settings, idx.primaryKey⟩,
          ?_, ?_, hres, hdest, fun d => Iff.rfl, rfl⟩
  · simp [dump, hdd]
  · simp [dump, hdd]

/-- C1 witness: the spec's worked example round-trips through a concrete
path. -/
theorem claim_C1_dump_restore_roundtrip_witness :
    ∃ snap store,
      (dump idx0).result = .ok () ∧
      (dump idx0).snapshot = some snap ∧
      (loadDump srcGood ⟨some snap.metaJson, some snap.docLines⟩).result = .ok () ∧
      (loadDump srcGood ⟨some snap.metaJson, some snap.docLines⟩).dest = some store ∧
      (∀ d, d ∈ store.documents ↔ d ∈ idx0.decodedDocuments) ∧
      store.settings = some idx0.settings :=
  claim_C1_dump_restore_roundtrip idx0 srcGood "myindex" rfl (by decide) (Or.inr rfl)

end MeiliDump
